import Mathlib

/-!
Verification of the iceoryx lock-free polymorphic handler registry
(`iceoryx_hoofs/internal/design_pattern/polymorphic_handler.inl`) and the
chunk-queue error contract
(`iceoryx_posh/internal/popo/building_blocks/chunk_queue_types.hpp`).

Shallow embedding conventions:
* Handler instances are identified by `Nat` (modelling pointer identity of
  the process-wide instances handed out by the `StaticLifetimeGuard`
  collaborator; two distinct instances have distinct identities).
* The registry state carries the `Activatable` flag of every handler
  instance as a function `Nat → Activatable`, mirroring the flag embedded
  by value in each handler object.
* `Option Nat` models a possibly-null `Interface*` return value
  (`none` = `nullptr`); the `m_current` slot itself is `Nat` because the
  constructor stores the (non-null) default instance and every store into
  the slot is the address of a C++ reference, so the slot never holds null.
* Ghost fields (`everCurrent`, `hookCalls`) record observable history:
  every value ever exchanged into `m_current`, and every invocation of the
  misuse hook `Hooks::onSetAfterFinalize` with its two arguments.
* Memory orderings (`acquire`/`release`/`relaxed`) collapse in this
  sequential embedding: each operation is one atomic step.
-/

namespace IceoryxSpec

/-- The boolean liveness flag of `design_pattern::Activatable`.
Modelled from the spec: the class declaration (the `.hpp` header) is not in
the sources, only the `.inl`; per spec §3 an `Activatable` is "created
`active` by default", so the default flag value is `true`. -/
structure Activatable where
  m_active : Bool
deriving DecidableEq, Repr

/-- Source `Activatable::activate`: `m_active.store(true, relaxed)`. -/
def Activatable.activate (_ : Activatable) : Activatable :=
  ⟨true⟩

/-- Source `Activatable::deactivate`: `m_active.store(false, relaxed)`. -/
def Activatable.deactivate (_ : Activatable) : Activatable :=
  ⟨false⟩

/-- Source `Activatable::isActive`: `m_active.load(relaxed)`. -/
def Activatable.isActive (a : Activatable) : Bool :=
  a.m_active

/-- Identity of the process-wide default handler instance
(`StaticLifetimeGuard<Default>::instance()`, returned by `getDefault`). -/
def defaultId : Nat := 0

/-- State of the process-wide
`PolymorphicHandler<Interface, Default, Hooks>` instance together with the
flags of all handler objects and ghost observation history. -/
structure RegistryState where
  /-- Field `m_current`: the atomically exchanged current-handler pointer. -/
  m_current : Nat
  /-- Field `m_isFinal`: the monotonic finalization flag. -/
  m_isFinal : Bool
  /-- The `Activatable` flag embedded in each handler instance. -/
  handlers : Nat → Activatable
  /-- Ghost: every handler identity ever stored in `m_current`
  (most recent first). -/
  everCurrent : List Nat
  /-- Ghost: log of `Hooks::onSetAfterFinalize(current, attempted)`
  invocations, in order. -/
  hookCalls : List (Nat × Nat)

/-- Source `PolymorphicHandler::PolymorphicHandler()`: stores the default
instance into `m_current` (release). The default instance's flag is `true`
and so is every other not-yet-touched `Activatable`.
Modelled from the spec: the initial flag value (`Activatable` "created
`active` by default", spec §3) lives in the missing `.hpp` header; the
`.inl` comment block likewise states "default is active". -/
def construct : RegistryState where
  m_current := defaultId
  m_isFinal := false
  handlers := fun _ => ⟨true⟩
  everCurrent := [defaultId]
  hookCalls := []

/-- Source `PolymorphicHandler::getCurrent()`: `m_current.load(acquire)`. -/
def getCurrent (s : RegistryState) : Nat :=
  s.m_current

/-- Source `PolymorphicHandler::getDefault()`:
`StaticLifetimeGuard<Default>::instance()`. -/
def getDefault : Nat :=
  defaultId

/-- Source `PolymorphicHandler::setHandler(Interface&)`. Returns the updated
state and the returned `Interface*` (`none` = `nullptr`).
If `m_isFinal` is set: invoke `Hooks::onSetAfterFinalize(*getCurrent(),
handler)` and return `nullptr`. Otherwise: `handler.activate()`, exchange
`m_current` to `&handler` obtaining `prev`, deactivate `prev` unless the
exchange was a self-exchange (`&handler == prev`), and return `prev`. -/
def setHandler (s : RegistryState) (handler : Nat) : RegistryState × Option Nat :=
  if s.m_isFinal then
    ({ s with hookCalls := s.hookCalls ++ [(s.m_current, handler)] }, none)
  else
    let prev := s.m_current
    let activated : Nat → Activatable :=
      fun x => if x = handler then (s.handlers x).activate else s.handlers x
    let afterExchange : Nat → Activatable :=
      if handler = prev then
        activated
      else
        fun x => if x = prev then (activated x).deactivate else activated x
    ({ m_current := handler
       m_isFinal := s.m_isFinal
       handlers := afterExchange
       everCurrent := handler :: s.everCurrent
       hookCalls := s.hookCalls }, some prev)

/-- Source `PolymorphicHandler::reset()`: `setHandler(getDefault())`. -/
def reset (s : RegistryState) : RegistryState × Option Nat :=
  setHandler s getDefault

/-- Source `PolymorphicHandler::finalize()`: `m_isFinal.store(true, release)`. -/
def finalize (s : RegistryState) : RegistryState :=
  { s with m_isFinal := true }

/-- Source `PolymorphicHandler::get()` as seen by one thread. `cache` is the
thread's `thread_local Interface* localHandler` (`none` before the thread's
first call). On first call the cache is initialized from `getCurrent()`;
then, if the (possibly just initialized) cached handler is not active, it
is reloaded from `getCurrent()` exactly once — no loop. Returns the handler
dereferenced by the call and the new cache value. -/
def get (s : RegistryState) (cache : Option Nat) : Nat × Nat :=
  let localHandler :=
    match cache with
    | none => getCurrent s
    | some h => h
  let localHandler' :=
    if ¬(s.handlers localHandler).isActive then getCurrent s else localHandler
  (localHandler', localHandler')

/-- Registry states reachable from construction by any sequential run of
the mutating operations (`get` does not modify the registry state). -/
inductive Reachable : RegistryState → Prop where
  | init : Reachable construct
  | set (s : RegistryState) (h : Nat) : Reachable s → Reachable (setHandler s h).1
  | reset_ (s : RegistryState) : Reachable s → Reachable (reset s).1
  | finalize_ (s : RegistryState) : Reachable s → Reachable (finalize s)

/-- The single-active-handler invariant: the current handler's flag is
true and every other handler ever installed has flag false. -/
def activeInvariant (s : RegistryState) : Prop :=
  (s.handlers s.m_current).isActive = true ∧
    ∀ h ∈ s.everCurrent, h ≠ s.m_current → (s.handlers h).isActive = false

theorem activeInvariant_construct : activeInvariant construct := by
  refine ⟨rfl, ?_⟩
  intro g hg hne
  simp only [construct] at hg
  rcases List.mem_singleton.mp hg with rfl
  exact absurd rfl hne

theorem activeInvariant_setHandler (s : RegistryState) (h : Nat)
    (inv : activeInvariant s) : activeInvariant (setHandler s h).1 := by
  obtain ⟨hcur, hother⟩ := inv
  by_cases hf : s.m_isFinal
  · refine ⟨?_, ?_⟩
    · simpa [setHandler, hf] using hcur
    · intro g hg hne
      simp only [setHandler, hf, if_true] at hg hne ⊢
      exact hother g hg hne
  · refine ⟨?_, ?_⟩
    · by_cases hself : h = s.m_current <;>
        simp [setHandler, hf, hself, Activatable.activate, Activatable.isActive]
    · intro g hg hne
      simp only [setHandler, hf, Bool.false_eq_true, if_false, List.mem_cons] at hg hne ⊢
      rcases hg with rfl | hg
      · exact absurd rfl hne
      · by_cases hself : h = s.m_current
        · have hgne : g ≠ s.m_current := hself ▸ hne
          simpa [hself, hgne, Activatable.isActive, Activatable.activate] using
            hother g hg hgne
        · by_cases hgprev : g = s.m_current
          · simp [hself, hgprev, Activatable.deactivate, Activatable.isActive]
          · simpa [hself, hgprev, hne, Activatable.isActive] using hother g hg hgprev

theorem activeInvariant_finalize (s : RegistryState)
    (inv : activeInvariant s) : activeInvariant (finalize s) := by
  obtain ⟨hcur, hother⟩ := inv
  exact ⟨hcur, fun g hg hne => hother g hg hne⟩

theorem current_mem_everCurrent (s : RegistryState) (hr : Reachable s) :
    s.m_current ∈ s.everCurrent := by
  induction hr with
  | init => simp [construct]
  | set s h _ ih =>
    by_cases hf : s.m_isFinal <;> simp [setHandler, hf, ih]
  | reset_ s _ ih =>
    by_cases hf : s.m_isFinal <;> simp [reset, setHandler, hf, ih]
  | finalize_ s _ ih => simpa [finalize] using ih

/-- Claim C4: every sequentially reachable registry state satisfies the
single-active-handler invariant: the handler in the current slot has its
flag true, and every other handler ever installed has its flag false
(`get` trivially preserves this, as it does not modify the state). -/
theorem reachable_states_satisfy_activeInvariant (s : RegistryState)
    (hr : Reachable s) : activeInvariant s := by
  induction hr with
  | init => exact activeInvariant_construct
  | set s h _ ih => exact activeInvariant_setHandler s h ih
  | reset_ s _ ih => exact activeInvariant_setHandler s getDefault ih
  | finalize_ s _ ih => exact activeInvariant_finalize s ih

theorem reachable_states_satisfy_activeInvariant_witness :
    activeInvariant (setHandler construct 1).1 :=
  reachable_states_satisfy_activeInvariant (setHandler construct 1).1
    (Reachable.set construct 1 Reachable.init)

/-- Claim C3: behaviour of `get()`. On a thread's first call (cache
`none`) the cache is populated from the registry's current handler and
that handler is returned. If the cached handler is active it is returned
directly — the result `(h, h)` does not depend on the registry state, so
no shared state is read. If the cached handler is inactive, the cache is
reloaded from the registry exactly once and the reloaded handler is
returned unconditionally — the third conjunct places no assumption on the
reloaded handler's own flag, so it is returned even if already inactive
again. `get` is total and, whenever the cache holds a value that was at
some point the registry's current handler, it returns a handler that was
at some point the registry's current handler. -/
theorem get_fast_path_and_single_reload (s : RegistryState) (h : Nat)
    (c : Option Nat) (hr : Reachable s) :
    ((get s none).1 = s.m_current ∧ (get s none).2 = s.m_current) ∧
      ((s.handlers h).isActive = true → get s (some h) = (h, h)) ∧
      ((s.handlers h).isActive = false → get s (some h) = (s.m_current, s.m_current)) ∧
      ((∀ g, c = some g → g ∈ s.everCurrent) → (get s c).1 ∈ s.everCurrent) := by
  refine ⟨?_, ?_, ?_, ?_⟩
  · by_cases hact : (s.handlers s.m_current).isActive <;>
      simp [get, getCurrent, hact]
  · intro hact
    simp [get, hact]
  · intro hinact
    simp [get, getCurrent, hinact]
  · intro hc
    have hmem := current_mem_everCurrent s hr
    cases c with
    | none =>
      by_cases hact : (s.handlers s.m_current).isActive <;>
        simp [get, getCurrent, hact, hmem]
    | some g =>
      by_cases hact : (s.handlers g).isActive <;>
        simp [get, getCurrent, hact, hmem, hc g rfl]

theorem get_fast_path_and_single_reload_witness :
    ((get construct none).1 = construct.m_current ∧
        (get construct none).2 = construct.m_current) ∧
      ((construct.handlers 0).isActive = true → get construct (some 0) = (0, 0)) ∧
      ((construct.handlers 0).isActive = false →
        get construct (some 0) = (construct.m_current, construct.m_current)) ∧
      ((∀ g, (none : Option Nat) = some g → g ∈ construct.everCurrent) →
        (get construct none).1 ∈ construct.everCurrent) :=
  get_fast_path_and_single_reload construct 0 none Reachable.init

/-- Spec-side model of `reset()`, written from the spec's words: reset
"restores the default active handler, subject to the same finalization
rule": when finalized, invoke the misuse hook with the current handler and
the default instance and return null; when open, mark the default instance
active, make it current (recording the installation), deactivate the
previously current handler if it is a different instance, and return the
previous handler. To be compared with `reset` as translated from the
source. -/
def resetSpec (s : RegistryState) : RegistryState × Option Nat :=
  if s.m_isFinal then
    ({ s with hookCalls := s.hookCalls ++ [(s.m_current, defaultId)] }, none)
  else
    let withDefaultActive : Nat → Activatable :=
      fun x => if x = defaultId then (s.handlers x).activate else s.handlers x
    let withPrevDeactivated : Nat → Activatable :=
      if defaultId = s.m_current then
        withDefaultActive
      else
        fun x => if x = s.m_current then (withDefaultActive x).deactivate
                 else withDefaultActive x
    ({ m_current := defaultId
       m_isFinal := s.m_isFinal
       handlers := withPrevDeactivated
       everCurrent := defaultId :: s.everCurrent
       hookCalls := s.hookCalls }, some s.m_current)

/-- Claim C5: `reset()` is observationally equivalent to `set` with the
default handler instance obtained from the lifetime-guard collaborator: it
literally equals `setHandler getDefault`, it equals the spec-side model
`resetSpec` on every state, when the registry is open it restores the
default as the active current handler (deactivating the previously
current handler if different) and returns the previous handler, and when
finalized it is rejected exactly as `set` is. -/
theorem reset_equiv_set_default (s : RegistryState) :
    reset s = setHandler s getDefault ∧
      reset s = resetSpec s ∧
      (s.m_isFinal = false →
        (reset s).1.m_current = defaultId ∧
          ((reset s).1.handlers defaultId).isActive = true ∧
          (s.m_current ≠ defaultId →
            ((reset s).1.handlers s.m_current).isActive = false) ∧
          (reset s).2 = some s.m_current) ∧
      (s.m_isFinal = true →
        (reset s).2 = none ∧ (reset s).1.m_current = s.m_current ∧
          (reset s).1.hookCalls = s.hookCalls ++ [(s.m_current, defaultId)]) := by
  refine ⟨rfl, ?_, ?_, ?_⟩
  · by_cases hf : s.m_isFinal <;>
      simp [reset, setHandler, resetSpec, getDefault, hf]
  · intro hopen
    refine ⟨?_, ?_, ?_, ?_⟩
    · simp [reset, setHandler, getDefault, hopen]
    · by_cases hself : defaultId = s.m_current <;>
        simp [reset, setHandler, getDefault, hopen, hself, Ne.symm,
          Activatable.activate, Activatable.isActive]
    · intro hne
      simp [reset, setHandler, getDefault, hopen, Ne.symm hne, hne,
        Activatable.deactivate, Activatable.isActive]
    · simp [reset, setHandler, getDefault, hopen]
  · intro hfin
    refine ⟨?_, ?_, ?_⟩ <;> simp [reset, setHandler, getDefault, hfin]

theorem reset_equiv_set_default_witness :
    reset construct = setHandler construct getDefault ∧
      reset construct = resetSpec construct ∧
      (construct.m_isFinal = false →
        (reset construct).1.m_current = defaultId ∧
          ((reset construct).1.handlers defaultId).isActive = true ∧
          (construct.m_current ≠ defaultId →
            ((reset construct).1.handlers construct.m_current).isActive = false) ∧
          (reset construct).2 = some construct.m_current) ∧
      (construct.m_isFinal = true →
        (reset construct).2 = none ∧
          (reset construct).1.m_current = construct.m_current ∧
          (reset construct).1.hookCalls =
            construct.hookCalls ++ [(construct.m_current, defaultId)]) :=
  reset_equiv_set_default construct

/-- Claim C6: `finalize()` sets the finalized flag, is idempotent (a
second call produces the identical state and fires no hook — `finalize`
never touches the hook log), and the flag is monotonic: no operation
(`setHandler`, `reset`, `finalize`) ever changes it back to false, and
`get` does not modify the registry state at all. -/
theorem finalize_monotone_idempotent (s : RegistryState) (h : Nat) :
    (finalize s).m_isFinal = true ∧
      finalize (finalize s) = finalize s ∧
      (finalize s).hookCalls = s.hookCalls ∧
      (finalize s).m_current = s.m_current ∧
      (finalize s).handlers = s.handlers ∧
      (s.m_isFinal = true → finalize s = s) ∧
      (setHandler s h).1.m_isFinal = s.m_isFinal ∧
      (reset s).1.m_isFinal = s.m_isFinal := by
  refine ⟨rfl, rfl, rfl, rfl, rfl, ?_, ?_, ?_⟩
  · intro hfin
    cases s with
    | mk c f hs e hc => simpa [finalize] using hfin.symm
  · by_cases hf : s.m_isFinal <;> simp [setHandler, hf]
  · by_cases hf : s.m_isFinal <;> simp [reset, setHandler, hf]

theorem finalize_monotone_idempotent_witness :
    (finalize construct).m_isFinal = true ∧
      finalize (finalize construct) = finalize construct ∧
      (finalize construct).hookCalls = construct.hookCalls ∧
      (finalize construct).m_current = construct.m_current ∧
      (finalize construct).handlers = construct.handlers ∧
      (construct.m_isFinal = true → finalize construct = construct) ∧
      (setHandler construct 2).1.m_isFinal = construct.m_isFinal ∧
      (reset construct).1.m_isFinal = construct.m_isFinal :=
  finalize_monotone_idempotent construct 2

/-- Enumeration `ChunkQueueError` from `chunk_queue_types.hpp`. -/
inductive ChunkQueueError where
  | SEMAPHORE_ALREADY_SET
  | QUEUE_OVERFLOW
deriving DecidableEq, Repr

/-- Claim C10: the queue error signal at the messaging-system boundary is
a closed two-valued enumeration: every value is `SEMAPHORE_ALREADY_SET` or
`QUEUE_OVERFLOW`, and the two values are distinct. -/
theorem chunkQueueError_two_valued_closed (e : ChunkQueueError) :
    (e = ChunkQueueError.SEMAPHORE_ALREADY_SET ∨ e = ChunkQueueError.QUEUE_OVERFLOW) ∧
      ChunkQueueError.SEMAPHORE_ALREADY_SET ≠ ChunkQueueError.QUEUE_OVERFLOW := by
  refine ⟨?_, by decide⟩
  cases e
  · exact Or.inl rfl
  · exact Or.inr rfl

theorem chunkQueueError_two_valued_closed_witness :
    (ChunkQueueError.QUEUE_OVERFLOW = ChunkQueueError.SEMAPHORE_ALREADY_SET ∨
      ChunkQueueError.QUEUE_OVERFLOW = ChunkQueueError.QUEUE_OVERFLOW) ∧
      ChunkQueueError.SEMAPHORE_ALREADY_SET ≠ ChunkQueueError.QUEUE_OVERFLOW :=
  chunkQueueError_two_valued_closed ChunkQueueError.QUEUE_OVERFLOW

/-- Claim C7: for a freshly constructed registry, before any set or reset,
`get()` (on a thread with an uninitialized cache) returns the process-wide
default handler instance, and that instance is active. -/
theorem construct_get_returns_active_default :
    construct.m_current = defaultId ∧
      (construct.handlers defaultId).isActive = true ∧
      (get construct none).1 = defaultId ∧
      (get construct none).2 = defaultId := by
  refine ⟨rfl, rfl, rfl, rfl⟩

/-- Claim C1: while the registry is not finalized, `setHandler h` marks
`h` active, exchanges `h` into the current slot, returns the previous
current handler (never null: the result is `some` of the old `m_current`),
and deactivates the previous handler exactly when it is a different
instance from `h`; a self-exchange leaves the handler's flag true. -/
theorem setHandler_open_exchanges_and_deactivates (s : RegistryState) (h : Nat)
    (hopen : s.m_isFinal = false) :
    (setHandler s h).2 = some s.m_current ∧
      (setHandler s h).1.m_current = h ∧
      ((setHandler s h).1.handlers h).isActive = true ∧
      (h ≠ s.m_current → ((setHandler s h).1.handlers s.m_current).isActive = false) ∧
      (h = s.m_current → ((setHandler s h).1.handlers s.m_current).isActive = true) := by
  refine ⟨?_, ?_, ?_, ?_, ?_⟩
  · simp [setHandler, hopen]
  · simp [setHandler, hopen]
  · by_cases hself : h = s.m_current
    · simp [setHandler, hopen, hself, Activatable.activate, Activatable.isActive]
    · simp [setHandler, hopen, hself, Activatable.activate, Activatable.deactivate,
        Activatable.isActive]
  · intro hne
    simp [setHandler, hopen, hne, Ne.symm hne, Activatable.deactivate, Activatable.isActive]
  · intro heq
    simp [setHandler, hopen, heq, Activatable.activate, Activatable.isActive]

theorem setHandler_open_exchanges_and_deactivates_witness :
    (setHandler construct 1).2 = some construct.m_current ∧
      (setHandler construct 1).1.m_current = 1 ∧
      ((setHandler construct 1).1.handlers 1).isActive = true ∧
      (1 ≠ construct.m_current →
        ((setHandler construct 1).1.handlers construct.m_current).isActive = false) ∧
      (1 = construct.m_current →
        ((setHandler construct 1).1.handlers construct.m_current).isActive = true) :=
  setHandler_open_exchanges_and_deactivates construct 1 rfl

/-- Claim C2: after `finalize()` has taken effect, `setHandler` (and hence
`set` and `reset`) does not exchange the current handler, invokes the
misuse hook exactly once with `(current, attempted)`, returns null, and a
subsequent `get` behaves exactly as before the call. The `reset` case is
the instance `handler = getDefault`. -/
theorem setHandler_after_finalize_rejected (s : RegistryState) (h : Nat)
    (hfin : s.m_isFinal = true) :
    (setHandler s h).1.m_current = s.m_current ∧
      (setHandler s h).1.handlers = s.handlers ∧
      (setHandler s h).1.hookCalls = s.hookCalls ++ [(s.m_current, h)] ∧
      (setHandler s h).2 = none ∧
      (∀ c, get (setHandler s h).1 c = get s c) ∧
      (reset s).1.m_current = s.m_current ∧
      (reset s).1.hookCalls = s.hookCalls ++ [(s.m_current, getDefault)] ∧
      (reset s).2 = none := by
  refine ⟨?_, ?_, ?_, ?_, fun c => ?_, ?_, ?_, ?_⟩ <;>
    simp [setHandler, reset, hfin, get, getCurrent]

theorem setHandler_after_finalize_rejected_witness :
    (setHandler (finalize construct) 1).1.m_current = (finalize construct).m_current ∧
      (setHandler (finalize construct) 1).1.handlers = (finalize construct).handlers ∧
      (setHandler (finalize construct) 1).1.hookCalls =
        (finalize construct).hookCalls ++ [((finalize construct).m_current, 1)] ∧
      (setHandler (finalize construct) 1).2 = none ∧
      (∀ c, get (setHandler (finalize construct) 1).1 c = get (finalize construct) c) ∧
      (reset (finalize construct)).1.m_current = (finalize construct).m_current ∧
      (reset (finalize construct)).1.hookCalls =
        (finalize construct).hookCalls ++ [((finalize construct).m_current, getDefault)] ∧
      (reset (finalize construct)).2 = none :=
  setHandler_after_finalize_rejected (finalize construct) 1 rfl

/-- Claim C9: a `setHandler` call rejected because the registry is
finalized mutates nothing besides the ghost hook log: the current pointer
and every handler's active flag — in particular the attempted handler's
own flag — are left unchanged, since the finalized check precedes the
`activate()` call. -/
theorem setHandler_rejection_atomic (s : RegistryState) (h : Nat)
    (hfin : s.m_isFinal = true) :
    (setHandler s h).1.handlers h = s.handlers h ∧
      (setHandler s h).1.m_current = s.m_current ∧
      (setHandler s h).1.handlers = s.handlers ∧
      (setHandler s h).1.m_isFinal = s.m_isFinal := by
  refine ⟨?_, ?_, ?_, ?_⟩ <;> simp [setHandler, hfin]

theorem setHandler_rejection_atomic_witness :
    (setHandler (finalize construct) 5).1.handlers 5 = (finalize construct).handlers 5 ∧
      (setHandler (finalize construct) 5).1.m_current = (finalize construct).m_current ∧
      (setHandler (finalize construct) 5).1.handlers = (finalize construct).handlers ∧
      (setHandler (finalize construct) 5).1.m_isFinal = (finalize construct).m_isFinal :=
  setHandler_rejection_atomic (finalize construct) 5 rfl

end IceoryxSpec
